import Mathlib

/-!
Verification of the log-sm core (src/core.ts): a shallow embedding of the
configuration-resolution and dispatch core — severity levels, level
resolution from an environment bag, the data transform pipeline
(mask → shallow truncation), error normalization, the override token
stack with derived runtime state, and the four gated emitters.

JavaScript values reachable by the logger's data pipeline are embedded as
the inductive type JVal; plain objects are ordered association lists of
own enumerable properties, and object spread is modelled by the
assignment semantics of JavaScript spread (existing keys keep their
position and receive the new value, fresh keys are appended).
Machine numerics: JS numbers that the claims exercise are integers, so
finite numbers are embedded as Int, with NaN / ±Infinity as separate
constructors where the code tests Number.isFinite.  String → number
coercion (the Number() fallback in parseLogLevel) is modelled for
optionally-signed decimal integer literals; every other string is NaN,
which matches JavaScript on all inputs used in the development.
-/

namespace LogSM

/-! ### Severity levels (core.ts lines 29–34) -/

def LogLevel.NONE  : Nat := 0
def LogLevel.ERROR : Nat := 1
def LogLevel.INFO  : Nat := 2
def LogLevel.DEBUG : Nat := 3

/-! ### String helpers

The JavaScript string methods the core uses (trim, toUpperCase,
toLowerCase, slice, length) are modelled over the character list of the
Lean string, so every definition evaluates by kernel reduction. -/

/-- JS String.prototype.trim (whitespace at both ends). -/
def jsTrim (s : String) : String :=
  ⟨((s.data.dropWhile Char.isWhitespace).reverse.dropWhile Char.isWhitespace).reverse⟩

/-- JS String.prototype.toUpperCase (ASCII). -/
def strUpper (s : String) : String := ⟨s.data.map Char.toUpper⟩

/-- JS String.prototype.toLowerCase (ASCII). -/
def strLower (s : String) : String := ⟨s.data.map Char.toLower⟩

/-- JS String.prototype.slice(0, n) for n ≥ 0. -/
def strTake (s : String) (n : Nat) : String := ⟨s.data.take n⟩

/-- JS String.prototype.length (code units; all strings here are ASCII). -/
def strLen (s : String) : Nat := s.data.length

/-- A JS value passed as a level argument: `number | string | null | undefined`.
`vNum` is a finite number (integer), `vNaN` a non-finite number. -/
inductive LevelArg where
  | vNone : LevelArg
  | vStr  : String → LevelArg
  | vNum  : Int → LevelArg
  | vNaN  : LevelArg
deriving DecidableEq, Repr

/-- Digits of a decimal literal, or none. -/
def decDigits : List Char → Option Nat
  | [] => none
  | cs => cs.foldl (fun acc c => match acc with
      | some n => if c.isDigit then some (n * 10 + (c.toNat - 48)) else none
      | none => none) (some 0)

/-- Model of JavaScript Number(s) for the strings this development uses:
optionally-signed decimal integer literals parse; whitespace-only and empty
strings are 0; anything else is NaN (returned as none). -/
def jsNumber (s : String) : Option Int :=
  let t := jsTrim s
  if t.data.isEmpty then some 0
  else match t.data with
    | '-' :: rest => (decDigits rest).map (fun n => -(n : Int))
    | '+' :: rest => (decDigits rest).map (fun n => (n : Int))
    | ds => (decDigits ds).map (fun n => (n : Int))

/-- Math.max(0, Math.min(3, n)) on a finite number. -/
def clamp03 (n : Int) : Nat := (max 0 (min 3 n)).toNat

/-- core.ts lines 384–408: parse a level name or number; undefined when
unparsable. -/
def parseLogLevel : LevelArg → Option Nat
  | .vNone => none
  | .vNaN => none
  | .vNum n => some (clamp03 n)
  | .vStr v =>
    let s := jsTrim v
    if s.data.isEmpty then none
    else match strUpper s with
      | "NONE"  => some LogLevel.NONE
      | "OFF"   => some LogLevel.NONE
      | "ERROR" => some LogLevel.ERROR
      | "ERR"   => some LogLevel.ERROR
      | "INFO"  => some LogLevel.INFO
      | "DEBUG" => some LogLevel.DEBUG
      | "DBG"   => some LogLevel.DEBUG
      | _ => (jsNumber v).map clamp03

/-! ### Level resolution (core.ts lines 353–382, 579) -/

/-- The environment bag fields the resolver reads. -/
structure EnvBag where
  DEBUG_MODE : Option String := none
  LOG_LEVEL  : Option String := none
  NODE_ENV   : Option String := none
deriving DecidableEq, Repr

/-- core.ts line 579: warnLevel := parseLogLevel(opts.warnLevel) ?? ERROR. -/
def resolveWarnLevel (optWarn : LevelArg) : Nat :=
  (parseLogLevel optWarn).getD LogLevel.ERROR

/-- env.DEBUG_MODE?.trim().toLowerCase() matches 1|true|yes|on. -/
def debugModeOn (env : Option EnvBag) : Bool :=
  match (env.bind (·.DEBUG_MODE)).map (fun s => strLower (jsTrim s)) with
  | some "1" => true
  | some "true" => true
  | some "yes" => true
  | some "on" => true
  | _ => false

/-- env.LOG_LEVEL?.trim().toUpperCase() is WARN or WRN (and nonempty). -/
def logLevelIsWarn (env : Option EnvBag) : Bool :=
  match (env.bind (·.LOG_LEVEL)).map (fun s => strUpper (jsTrim s)) with
  | some "WARN" => true
  | some "WRN" => true
  | _ => false

/-- env.LOG_LEVEL as a LevelArg (undefined when the variable is absent). -/
def logLevelArg (env : Option EnvBag) : LevelArg :=
  match env.bind (·.LOG_LEVEL) with
  | some s => .vStr s
  | none => .vNone

/-- env.NODE_ENV?.trim().toLowerCase() === 'production'. -/
def nodeEnvProduction (env : Option EnvBag) : Bool :=
  (env.bind (·.NODE_ENV)).map (fun s => strLower (jsTrim s)) == some "production"

/-- core.ts lines 353–382: resolve the base level with precedence
explicit > DEBUG_MODE > LOG_LEVEL (WARN special-case) > NODE_ENV. -/
def resolveLevel (optLevel : LevelArg) (warnLevel : Nat)
    (env : Option EnvBag) (prodDefault : LevelArg) : Nat :=
  match parseLogLevel optLevel with
  | some l => l
  | none =>
    if debugModeOn env then LogLevel.DEBUG
    else
      let l := if logLevelIsWarn env then some warnLevel
               else parseLogLevel (logLevelArg env)
      match l with
      | some lv => lv
      | none =>
        if nodeEnvProduction env then (parseLogLevel prodDefault).getD LogLevel.ERROR
        else LogLevel.INFO

/-! ### JS values and objects -/

/-- A JavaScript value as seen by the logger's data pipeline.
`jObj` is a plain object (prototype Object.prototype or null),
`jNonPlain` a non-plain non-array object (Date, class instance, Error
instance, …); both carry their own enumerable properties in insertion
order.  `jBuf` is a Node Buffer holding the given bytes. -/
inductive JVal where
  | jStr  : String → JVal
  | jNum  : Int → JVal
  | jBig  : Int → JVal
  | jBool : Bool → JVal
  | jNull : JVal
  | jUndef : JVal
  | jBuf  : List Nat → JVal
  | jArr  : List JVal → JVal
  | jObj  : List (String × JVal) → JVal
  | jNonPlain : List (String × JVal) → JVal

/-- An object's own enumerable properties, in insertion order. -/
abbrev JObj := List (String × JVal)

/-- Value of an own property, if present. -/
def objFind (fs : JObj) (k : String) : Option JVal :=
  (fs.find? (fun kv => kv.1 == k)).map (·.2)

/-- JS property read: undefined when absent. -/
def objGetF (fs : JObj) (k : String) : JVal :=
  (objFind fs k).getD JVal.jUndef

/-- JS truthiness. -/
def jsTruthy : JVal → Bool
  | .jStr s => ¬ s.data.isEmpty
  | .jNum n => n != 0
  | .jBig n => n != 0
  | .jBool b => b
  | .jNull => false
  | .jUndef => false
  | _ => true

/-- v === undefined. -/
def isUndef : JVal → Bool
  | .jUndef => true
  | _ => false

/-- typeof v === 'object' (null included). -/
def jsIsObjectType : JVal → Bool
  | .jNull => true
  | .jBuf _ => true
  | .jArr _ => true
  | .jObj _ => true
  | .jNonPlain _ => true
  | _ => false

/-- core.ts lines 829–833: plain-object detection — an object that is not
null, not an array, and whose prototype is Object.prototype or null. -/
def isPlainObject : JVal → Bool
  | .jObj _ => true
  | _ => false

/-- Own enumerable properties of a value when spread / enumerated:
objects and non-plain objects expose their fields, arrays and buffers
expose index keys, primitives expose nothing. -/
def ownFields : JVal → JObj
  | .jObj fs => fs
  | .jNonPlain fs => fs
  | .jArr xs => (xs.enum.map (fun p => (toString p.1, p.2)))
  | .jBuf bs => (bs.enum.map (fun p => (toString p.1, JVal.jNum (p.2 : Int))))
  | _ => []

/-- JavaScript object spread / Object.assign merge \x7b...a, ...b\x7d:
keys of a keep their position (receiving b's value when b also has the
key); keys only in b are appended in b's order. -/
def spread (a b : JObj) : JObj :=
  a.map (fun kv => (kv.1, (objFind b kv.1).getD kv.2))
    ++ b.filter (fun kv => (objFind a kv.1).isNone)

/-! ### Data transform pipeline (core.ts lines 432–456, 554–557) -/

/-- Per-field rewrite of truncateFields' clone loop (core.ts lines
449–454): bigint → toString, long string → slice + marker, Buffer →
size summary, everything else (nested objects included) unchanged. -/
def truncVal (maxPerField : Int) (v : JVal) : JVal :=
  match v with
  | .jBig n => .jStr (toString n)
  | .jStr s => if (strLen s : Int) > maxPerField
      then .jStr (strTake s maxPerField.toNat ++ "...[truncated]") else v
  | .jBuf bs => .jStr ("[Buffer " ++ toString bs.length ++ " bytes]")
  | _ => v

/-- core.ts lines 432–456: shallow truncation.  Non-objects and null pass
through, as does everything when the limit is not positive; otherwise the
value is shallow-cloned (spread, so non-plain objects and buffers clone
to plain objects, arrays to arrays) and each own field is rewritten by
the clone loop. -/
def truncateFields (obj : JVal) (maxPerField : Int) : JVal :=
  if ¬ jsTruthy obj ∨ ¬ jsIsObjectType obj then obj
  else if maxPerField ≤ 0 then obj
  else match obj with
    | .jArr xs => .jArr (xs.map (truncVal maxPerField))
    | _ => .jObj ((ownFields obj).map (fun kv => (kv.1, truncVal maxPerField kv.2)))

/-- Apply the optional mask (mask ? mask(x) : x). -/
def applyMask (mask : Option (JVal → JVal)) (x : JVal) : JVal :=
  match mask with
  | some m => m x
  | none => x

/-- core.ts lines 554–557: the data transform — when opts.truncate is
truthy, mask then truncate; otherwise mask alone (or identity). -/
def trans (mask : Option (JVal → JVal)) (truncate : Option Int) (x : JVal) : JVal :=
  match truncate with
  | some t => if t != 0 then truncateFields (applyMask mask x) t else applyMask mask x
  | none => applyMask mask x

/-! ### Error normalization (core.ts lines 298–330) -/

/-- core.ts lines 298–302: error-like duck typing — an object with a
string message and a string name or stack. -/
def isErrorLike (e : JVal) : Bool :=
  jsTruthy e && jsIsObjectType e &&
    (match objGetF (ownFields e) "message" with | .jStr _ => true | _ => false) &&
    ((match objGetF (ownFields e) "name" with | .jStr _ => true | _ => false) ||
     (match objGetF (ownFields e) "stack" with | .jStr _ => true | _ => false))

/-- core.ts lines 310–330: normalize an error-like source (given by its
own enumerable properties) into \x7bname, message, stack?\x7d plus the
custom fields, never letting a custom name/message/stack overwrite the
normalized ones. -/
def normalizeError (err : JObj) (includeStack : Bool) : JObj :=
  let nameV := let n := objGetF err "name"; if jsTruthy n then n else .jStr "Error"
  let base : JObj := [("name", nameV), ("message", objGetF err "message")]
  let base := match includeStack, objGetF err "stack" with
    | true, .jStr s => base ++ [("stack", .jStr s)]
    | _, _ => base
  base ++ err.filter (fun kv => kv.1 != "name" && kv.1 != "message" && kv.1 != "stack")

/-! ### Override token stack and runtime state (core.ts lines 583–667, 742–765) -/

/-- Debug-window flags stored on a token (normalized at push time). -/
structure DebugWindowOpts where
  allowInfo : Bool
  includeStack : Bool
deriving DecidableEq, Repr

/-- The caller's opts argument to debugForMs: both flags optional,
defaulted to true at push time. -/
structure DebugArgOpts where
  allowInfo : Option Bool := none
  includeStack : Option Bool := none
deriving DecidableEq, Repr

/-- core.ts lines 742–750: an override token.  The Symbol identity is
modelled as a Nat drawn from a monotone counter. -/
structure Token where
  token : Nat
  level : Option Nat := none
  debugWindow : Option DebugWindowOpts := none
deriving DecidableEq, Repr

/-- core.ts lines 758–765: the runtime state — the frozen base level, the
token stack, and the derived fields recomputed after every mutation.
nextId models the freshness of Symbol('lvl'). -/
structure RuntimeState where
  baseLevel : Nat
  level : Nat
  inDebug : Bool
  inDebugAllowInfo : Bool
  inDebugIncludeStack : Bool
  tokens : List Token
  nextId : Nat
deriving DecidableEq, Repr

/-- The level of the most recently pushed token that defines a level
(the backward scan of recomputeState, lines 597–604). -/
def lastLevel (ts : List Token) : Option Nat :=
  ts.foldl (fun acc t => match t.level with | some l => some l | none => acc) none

/-- The debug window of the most recently pushed token that defines one
(the backward scan of recomputeState, lines 608–619). -/
def lastDebug (ts : List Token) : Option DebugWindowOpts :=
  ts.foldl (fun acc t => match t.debugWindow with | some w => some w | none => acc) none

/-- core.ts lines 592–623: recompute the derived fields from the token
stack — last level token wins, else base; last debug token wins, else
all debug flags false. -/
def recomputeState (st : RuntimeState) : RuntimeState :=
  { st with
    level := (lastLevel st.tokens).getD st.baseLevel
    inDebug := (lastDebug st.tokens).isSome
    inDebugAllowInfo := match lastDebug st.tokens with
      | some w => w.allowInfo
      | none => false
    inDebugIncludeStack := match lastDebug st.tokens with
      | some w => w.includeStack
      | none => false }

/-- The state created by createLogger (lines 583–590). -/
def initState (baseLevel : Nat) : RuntimeState :=
  { baseLevel := baseLevel, level := baseLevel, inDebug := false,
    inDebugAllowInfo := false, inDebugIncludeStack := false,
    tokens := [], nextId := 0 }

/-- The derived fields agree with a recomputation from the token stack,
and every token id is below the freshness counter.  This holds after
every operation of the override machinery. -/
def stConsistent (st : RuntimeState) : Bool :=
  st.level == (lastLevel st.tokens).getD st.baseLevel &&
  st.inDebug == (lastDebug st.tokens).isSome &&
  st.inDebugAllowInfo == (match lastDebug st.tokens with
    | some w => w.allowInfo | none => false) &&
  st.inDebugIncludeStack == (match lastDebug st.tokens with
    | some w => w.includeStack | none => false) &&
  st.tokens.all (fun t => t.token < st.nextId)

/-- core.ts lines 626–638: push a level or debug-window override token
and recompute; returns the token id for the disposer.  A level argument
that fails to parse falls back to NONE. -/
def pushOverride (level : Option LevelArg) (debug : DebugArgOpts)
    (st : RuntimeState) : Nat × RuntimeState :=
  let entry : Token := match level with
    | some l => { token := st.nextId, level := some ((parseLogLevel l).getD LogLevel.NONE) }
    | none => { token := st.nextId,
                debugWindow := some { allowInfo := debug.allowInfo.getD true,
                                      includeStack := debug.includeStack.getD true } }
  (st.nextId,
   recomputeState { st with tokens := st.tokens ++ [entry], nextId := st.nextId + 1 })

/-- Remove the first token with the given id (tokens.findIndex + splice). -/
def removeFirst (ts : List Token) (id : Nat) : List Token :=
  match ts with
  | [] => []
  | t :: rest => if t.token == id then rest else t :: removeFirst rest id

/-- core.ts lines 650–666: the disposer body and the timer callback —
remove the token by identity (wherever it sits in the stack) and
recompute.  Removing an id that is no longer present only recomputes,
which matches a disposer called after expiry. -/
def removeToken (id : Nat) (st : RuntimeState) : RuntimeState :=
  recomputeState { st with tokens := removeFirst st.tokens id }

/-! ### Timed and scoped overrides (core.ts lines 706–724) -/

/-- A JS number argument where the code tests Number.isFinite. -/
inductive JSNum where
  | fin : Int → JSNum
  | nan : JSNum
  | posInf : JSNum
  | negInf : JSNum
deriving DecidableEq, Repr

/-- Number.isFinite(ms). -/
def jsFinite : JSNum → Bool
  | .fin _ => true
  | _ => false

/-- ms <= 0 (false for NaN, which compares false against everything). -/
def jsLeZero : JSNum → Bool
  | .fin x => x ≤ 0
  | .nan => false
  | .posInf => false
  | .negInf => true

/-- ms > 0 (false for NaN). -/
def jsPos : JSNum → Bool
  | .fin x => 0 < x
  | .nan => false
  | .posInf => true
  | .negInf => false

/-- core.ts lines 706–709: debugForMs throws before touching the stack
unless ms is finite and positive; otherwise it pushes a debug-window
token.  The timer-driven expiry is modelled as a later removeToken. -/
def debugForMs (ms : JSNum) (opts : DebugArgOpts) (st : RuntimeState) :
    Except String (Nat × RuntimeState) :=
  if ¬ jsFinite ms ∨ jsLeZero ms then
    .error "debugForMs requires a positive ms duration."
  else .ok (pushOverride none opts st)

/-- core.ts lines 710–713: withLevelTimed throws before touching the
stack unless ms is finite and positive; otherwise it pushes a level
token. -/
def withLevelTimed (level : LevelArg) (ms : JSNum) (st : RuntimeState) :
    Except String (Nat × RuntimeState) :=
  if ¬ jsFinite ms ∨ jsLeZero ms then
    .error "withLevelTimed requires a positive ms duration."
  else .ok (pushOverride (some level) {} st)

/-- The behavior of the function passed to withLevel: a synchronous
return of a non-thenable, a synchronous throw, or a thenable that later
settles with a value or a rejection. -/
inductive FnBehavior (α : Type) where
  | ret : α → FnBehavior α
  | throws : FnBehavior α
  | thenable : Except Unit α → FnBehavior α

/-- What withLevel hands back to its caller once everything (including a
returned awaitable) has settled. -/
inductive WLOutcome (α : Type) where
  | ret : α → WLOutcome α
  | thrown : WLOutcome α
  | promiseOk : α → WLOutcome α
  | promiseRejected : WLOutcome α
deriving DecidableEq, Repr

/-- core.ts lines 714–724: withLevel pushes a level token, runs fn, and
disposes the token on every exit path — after a synchronous return,
in the catch of a synchronous throw, and in Promise.finally when fn
returns a thenable (on fulfillment and on rejection alike). -/
def withLevel (level : LevelArg) (fn : FnBehavior α) (st : RuntimeState) :
    WLOutcome α × RuntimeState :=
  let (id, st1) := pushOverride (some level) {} st
  match fn with
  | .ret v => (.ret v, removeToken id st1)
  | .throws => (.thrown, removeToken id st1)
  | .thenable (.ok v) => (.promiseOk v, removeToken id st1)
  | .thenable (.error _) => (.promiseRejected, removeToken id st1)

/-- The state observable while fn runs inside withLevel (after the push,
before the disposal). -/
def withLevelDuring (level : LevelArg) (st : RuntimeState) : RuntimeState :=
  (pushOverride (some level) {} st).2

/-! ### Emitters (core.ts lines 541–576, 683–705) -/

/-- errorInputPolicy (core.ts line 575). -/
inductive InputPolicy where
  | never | ifNonError | always
deriving DecidableEq, Repr

/-- The resolved per-logger configuration the emitters close over:
transform pipeline, warn gate, stack inclusion, error input policy and
key, and the optional per-level message labels. -/
structure LoggerConfig where
  mask : Option (JVal → JVal) := none
  truncate : Option Int := none
  warnLevel : Nat := LogLevel.ERROR
  includeStack : Bool := true
  inputPolicy : InputPolicy := .ifNonError
  inputKey : String := "input"
  errorTag : Option String := none
  warnTag : Option String := none
  infoTag : Option String := none
  debugTag : Option String := none

/-- core.ts lines 424–426: level-tag prefixing of the message text. -/
def levelTagFormat (levelTag : Option String) (m : String) : String :=
  match levelTag with
  | some t => t ++ " " ++ m
  | none => m

/-- core.ts lines 695–697: merge rule for the extra payload — plain
objects spread, undefined contributes nothing, anything else is wrapped
under \x7b data \x7d. -/
def extraOf (data : JVal) : JObj :=
  if isPlainObject data then ownFields data
  else if ¬ isUndef data then [("data", data)]
  else []

/-- core.ts lines 683–702: the error emitter.  Gate: effective level ≥
ERROR, with no debug-window bypass.  Payload: normalize error-likes
(stack forced during a stack-including debug window), attach the raw
input according to the input policy, merge the extra data, then
transform. -/
def error_emit (cfg : LoggerConfig) (st : RuntimeState)
    (input : JVal) (data : JVal) : Option (String × JVal) :=
  if st.level < LogLevel.ERROR then none
  else
    let isErr := isErrorLike input
    let msg := if isErr then
        (match objGetF (ownFields input) "message" with | .jStr s => s | _ => "")
      else match input with | .jStr s => s | _ => "[non-string error]"
    let norm : JObj := if isErr then
        normalizeError (ownFields input)
          (cfg.includeStack || (st.inDebug && st.inDebugIncludeStack))
      else []
    let extra := extraOf data
    let payload : JObj :=
      if isErr then
        (if cfg.inputPolicy = .always
         then spread (spread [(cfg.inputKey, input)] norm) extra
         else spread norm extra)
      else
        (if cfg.inputPolicy = .never
         then spread norm extra
         else spread [(cfg.inputKey, input)] extra)
    some (levelTagFormat cfg.errorTag msg, trans cfg.mask cfg.truncate (.jObj payload))

/-- core.ts line 703: the warn emitter — gated by effective level ≥
warnLevel alone. -/
def warn_emit (cfg : LoggerConfig) (st : RuntimeState)
    (msg : String) (data : JVal) : Option (String × JVal) :=
  if st.level ≥ cfg.warnLevel then
    some (levelTagFormat cfg.warnTag msg, trans cfg.mask cfg.truncate data)
  else none

/-- core.ts line 704: the info emitter — gated by effective level ≥ INFO
or an info-allowing debug window. -/
def info_emit (cfg : LoggerConfig) (st : RuntimeState)
    (msg : String) (data : JVal) : Option (String × JVal) :=
  if st.level ≥ LogLevel.INFO ∨ (st.inDebug && st.inDebugAllowInfo) then
    some (levelTagFormat cfg.infoTag msg, trans cfg.mask cfg.truncate data)
  else none

/-- core.ts line 705: the debug emitter — gated by effective level ≥
DEBUG or any debug window. -/
def debug_emit (cfg : LoggerConfig) (st : RuntimeState)
    (msg : String) (data : JVal) : Option (String × JVal) :=
  if st.level ≥ LogLevel.DEBUG ∨ st.inDebug then
    some (levelTagFormat cfg.debugTag msg, trans cfg.mask cfg.truncate data)
  else none

/-! ### Tag merge wrapper (core.ts lines 776–818) -/

/-- core.ts lines 789–791: the payload merge of a withTags wrapper —
undefined becomes exactly the tags, plain objects are spread in policy
order, anything else is wrapped under \x7b data \x7d first. -/
def tagMerge (mergeTagsDataWins : Bool) (tags : JObj) (data : JVal) : JVal :=
  if mergeTagsDataWins then
    if isUndef data then .jObj tags
    else if isPlainObject data then .jObj (spread tags (ownFields data))
    else .jObj (spread tags [("data", data)])
  else
    if isUndef data then .jObj tags
    else if isPlainObject data then .jObj (spread (ownFields data) tags)
    else .jObj (spread [("data", data)] tags)

/-- The info path of a withTags wrapper: the sibling forwards
base.info(msg, merge(data)) (core.ts line 797). -/
def withTags_info (tags : JObj) (mergeTagsDataWins : Bool)
    (cfg : LoggerConfig) (st : RuntimeState) (msg : String) (data : JVal) :
    Option (String × JVal) :=
  info_emit cfg st msg (tagMerge mergeTagsDataWins tags data)

/-! ### Operation sequences over the override stack -/

/-- One mutation of the override token stack: a level push (withLevel /
withLevelTimed), a debug-window push (debugForMs), or a removal by token
identity (a disposer call or a timer expiry). -/
inductive OvOp where
  | pushLevel : LevelArg → OvOp
  | pushDebug : DebugArgOpts → OvOp
  | remove : Nat → OvOp
deriving DecidableEq, Repr

/-- Apply one stack mutation. -/
def applyOp (st : RuntimeState) : OvOp → RuntimeState
  | .pushLevel arg => (pushOverride (some arg) {} st).2
  | .pushDebug opts => (pushOverride none opts st).2
  | .remove id => removeToken id st

/-- Run a sequence of stack mutations from a fresh logger. -/
def runOps (ops : List OvOp) (baseLevel : Nat) : RuntimeState :=
  ops.foldl applyOp (initState baseLevel)

/-! ### Helper lemmas -/

theorem lastLevel_append (ts : List Token) (t : Token) :
    lastLevel (ts ++ [t]) =
      (match t.level with | some l => some l | none => lastLevel ts) := by
  simp [lastLevel, List.foldl_append]

theorem lastDebug_append (ts : List Token) (t : Token) :
    lastDebug (ts ++ [t]) =
      (match t.debugWindow with | some w => some w | none => lastDebug ts) := by
  simp [lastDebug, List.foldl_append]

theorem mem_removeFirst {ts : List Token} {id : Nat} {t : Token}
    (h : t ∈ removeFirst ts id) : t ∈ ts := by
  induction ts with
  | nil => simp [removeFirst] at h
  | cons a as ih =>
    by_cases ha : a.token == id
    · simp only [removeFirst, ha, if_pos] at h
      exact List.mem_cons_of_mem a h
    · simp only [removeFirst, ha, if_neg] at h
      rcases List.mem_cons.mp h with h1 | h2
      · exact h1 ▸ List.mem_cons_self a as
      · exact List.mem_cons_of_mem a (ih h2)

theorem removeFirst_append_fresh (ts : List Token) (t0 : Token)
    (h : ∀ t ∈ ts, t.token ≠ t0.token) :
    removeFirst (ts ++ [t0]) t0.token = ts := by
  induction ts with
  | nil => simp [removeFirst]
  | cons a as ih =>
    have ha : (a.token == t0.token) = false := by
      simpa using h a (List.mem_cons_self a as)
    simp only [List.cons_append, removeFirst, ha, if_neg, Bool.false_eq_true,
      not_false_eq_true]
    exact congrArg (a :: ·) (ih (fun t ht => h t (List.mem_cons_of_mem a ht)))

theorem stConsistent_recomputeState (st : RuntimeState)
    (h : ∀ t ∈ st.tokens, t.token < st.nextId) :
    stConsistent (recomputeState st) = true := by
  simp [stConsistent, recomputeState, List.all_eq_true]
  exact h

theorem pushOverride_consistent (level : Option LevelArg) (dbg : DebugArgOpts)
    (st : RuntimeState) (h : ∀ t ∈ st.tokens, t.token < st.nextId) :
    stConsistent (pushOverride level dbg st).2 = true := by
  cases level <;>
  · apply stConsistent_recomputeState
    intro t ht
    rcases List.mem_append.mp ht with h1 | h2
    · exact Nat.lt_succ_of_lt (h t h1)
    · simp only [List.mem_singleton] at h2
      subst h2
      exact Nat.lt_succ_self _

theorem removeToken_consistent (id : Nat) (st : RuntimeState)
    (h : ∀ t ∈ st.tokens, t.token < st.nextId) :
    stConsistent (removeToken id st) = true := by
  apply stConsistent_recomputeState
  intro t ht
  exact h t (mem_removeFirst ht)

theorem stConsistent_tokens_lt {st : RuntimeState} (h : stConsistent st = true) :
    ∀ t ∈ st.tokens, t.token < st.nextId := by
  simp [stConsistent, List.all_eq_true] at h
  exact h.2

theorem applyOp_consistent (st : RuntimeState) (op : OvOp)
    (h : stConsistent st = true) : stConsistent (applyOp st op) = true := by
  cases op with
  | pushLevel arg => exact pushOverride_consistent _ _ _ (stConsistent_tokens_lt h)
  | pushDebug opts => exact pushOverride_consistent _ _ _ (stConsistent_tokens_lt h)
  | remove id => exact removeToken_consistent _ _ (stConsistent_tokens_lt h)

theorem foldl_applyOp_consistent (ops : List OvOp) :
    ∀ st : RuntimeState, stConsistent st = true →
      stConsistent (ops.foldl applyOp st) = true := by
  induction ops with
  | nil => intro st h; exact h
  | cons op rest ih => intro st h; exact ih _ (applyOp_consistent st op h)

theorem initState_consistent (b : Nat) : stConsistent (initState b) = true := by
  simp [stConsistent, initState, lastLevel, lastDebug]

theorem runOps_consistent (ops : List OvOp) (b : Nat) :
    stConsistent (runOps ops b) = true :=
  foldl_applyOp_consistent ops _ (initState_consistent b)

theorem applyOp_baseLevel (st : RuntimeState) (op : OvOp) :
    (applyOp st op).baseLevel = st.baseLevel := by
  cases op <;> simp [applyOp, pushOverride, removeToken, recomputeState]

theorem runOps_baseLevel (ops : List OvOp) (b : Nat) :
    (runOps ops b).baseLevel = b := by
  suffices h : ∀ st : RuntimeState, (ops.foldl applyOp st).baseLevel = st.baseLevel by
    exact (h (initState b)).trans rfl
  induction ops with
  | nil => intro st; rfl
  | cons op rest ih => intro st; exact (ih _).trans (applyOp_baseLevel st op)

/-- Unpack the consistency invariant into its field equations. -/
theorem stConsistent_fields {st : RuntimeState} (h : stConsistent st = true) :
    st.level = (lastLevel st.tokens).getD st.baseLevel
    ∧ st.inDebug = (lastDebug st.tokens).isSome
    ∧ st.inDebugAllowInfo = ((lastDebug st.tokens).map DebugWindowOpts.allowInfo).getD false
    ∧ st.inDebugIncludeStack = ((lastDebug st.tokens).map DebugWindowOpts.includeStack).getD false := by
  simp [stConsistent, List.all_eq_true] at h
  obtain ⟨⟨⟨⟨h1, h2⟩, h3⟩, h4⟩, h5⟩ := h
  refine ⟨h1, h2, ?_, ?_⟩ <;> cases hd : lastDebug st.tokens <;>
    simp_all

/-- The token pushOverride builds for a level argument (parse failure
falls back to NONE). -/
def levelEntry (st : RuntimeState) (arg : LevelArg) : Token :=
  { token := st.nextId, level := some ((parseLogLevel arg).getD LogLevel.NONE) }

/-- The token pushOverride builds for a debug window (flags default to
true). -/
def debugEntry (st : RuntimeState) (dbg : DebugArgOpts) : Token :=
  { token := st.nextId,
    debugWindow := some { allowInfo := dbg.allowInfo.getD true,
                          includeStack := dbg.includeStack.getD true } }

theorem applyOp_pushLevel_debugFields (st : RuntimeState) (arg : LevelArg) :
    (applyOp st (.pushLevel arg)).inDebug = (lastDebug st.tokens).isSome
    ∧ (applyOp st (.pushLevel arg)).inDebugAllowInfo
        = ((lastDebug st.tokens).map DebugWindowOpts.allowInfo).getD false
    ∧ (applyOp st (.pushLevel arg)).inDebugIncludeStack
        = ((lastDebug st.tokens).map DebugWindowOpts.includeStack).getD false := by
  have e : applyOp st (.pushLevel arg)
      = recomputeState { st with
          tokens := st.tokens ++ [levelEntry st arg]
          nextId := st.nextId + 1 } := rfl
  rw [e]
  simp only [recomputeState, lastDebug_append, levelEntry, true_and]
  constructor <;> cases lastDebug st.tokens <;> rfl

theorem applyOp_pushDebug_level (st : RuntimeState) (dbg : DebugArgOpts) :
    (applyOp st (.pushDebug dbg)).level = (lastLevel st.tokens).getD st.baseLevel := by
  have e : applyOp st (.pushDebug dbg)
      = recomputeState { st with
          tokens := st.tokens ++ [debugEntry st dbg]
          nextId := st.nextId + 1 } := rfl
  rw [e]
  simp only [recomputeState, lastLevel_append, debugEntry]

/-- Pushing a level token and then removing it by its id restores every
field of a consistent state (only the Symbol counter advances). -/
theorem pushRemove_state (level : LevelArg) (st : RuntimeState)
    (h : stConsistent st = true) :
    removeToken (pushOverride (some level) {} st).1 (pushOverride (some level) {} st).2
      = { st with nextId := st.nextId + 1 } := by
  have hall := stConsistent_tokens_lt h
  obtain ⟨h1, h2, h3, h4⟩ := stConsistent_fields h
  have htok : removeFirst (st.tokens ++ [levelEntry st level]) st.nextId = st.tokens :=
    removeFirst_append_fresh st.tokens (levelEntry st level)
      (fun t ht => Nat.ne_of_lt (hall t ht))
  have e : removeToken (pushOverride (some level) {} st).1 (pushOverride (some level) {} st).2
      = recomputeState { st with
          tokens := removeFirst (st.tokens ++ [levelEntry st level]) st.nextId
          nextId := st.nextId + 1 } := rfl
  rw [e, htok]
  obtain ⟨bl, lv, d, da, ds, tks, ni⟩ := st
  simp only [recomputeState, RuntimeState.mk.injEq, true_and, and_true]
  refine ⟨h1.symm, h2.symm, ?_, ?_⟩ <;>
    cases hd : lastDebug tks <;> simp_all

/-! ### Claim theorems -/

/-- C6: after any sequence of override pushes and removals (withLevel,
withLevelTimed, debugForMs, their disposers, or timer expiry), the
derived state is consistent: the effective level is the level of the
most recently pushed still-present level token, or the frozen base level
if none exists; the debug-window flags come from the most recently
pushed still-present debug-window token, or are all false if none
exists; and pushing a level token never changes the debug-window flags
while pushing a debug-window token never changes the effective level. -/
theorem overrideStack_state_invariant (ops : List OvOp) (base : Nat)
    (arg : LevelArg) (dopts : DebugArgOpts) :
    ((runOps ops base).level = (lastLevel (runOps ops base).tokens).getD base)
    ∧ ((runOps ops base).inDebug = (lastDebug (runOps ops base).tokens).isSome)
    ∧ ((runOps ops base).inDebugAllowInfo
        = ((lastDebug (runOps ops base).tokens).map DebugWindowOpts.allowInfo).getD false)
    ∧ ((runOps ops base).inDebugIncludeStack
        = ((lastDebug (runOps ops base).tokens).map DebugWindowOpts.includeStack).getD false)
    ∧ ((applyOp (runOps ops base) (.pushLevel arg)).inDebug = (runOps ops base).inDebug)
    ∧ ((applyOp (runOps ops base) (.pushLevel arg)).inDebugAllowInfo
        = (runOps ops base).inDebugAllowInfo)
    ∧ ((applyOp (runOps ops base) (.pushLevel arg)).inDebugIncludeStack
        = (runOps ops base).inDebugIncludeStack)
    ∧ ((applyOp (runOps ops base) (.pushDebug dopts)).level = (runOps ops base).level) := by
  obtain ⟨h1, h2, h3, h4⟩ := stConsistent_fields (runOps_consistent ops base)
  have hb := runOps_baseLevel ops base
  obtain ⟨d1, d2, d3⟩ := applyOp_pushLevel_debugFields (runOps ops base) arg
  have dl := applyOp_pushDebug_level (runOps ops base) dopts
  refine ⟨by simpa only [hb] using h1, h2, h3, h4, ?_, ?_, ?_, ?_⟩
  · rw [d1]; exact h2.symm
  · rw [d2]; exact h3.symm
  · rw [d3]; exact h4.symm
  · rw [dl]; exact h1.symm

/-- C5: withLevel pushes a level override before invoking fn and removes
it on every exit path — after a synchronous return, after a synchronous
throw, and at settlement (fulfillment or rejection) when fn returns an
awaitable — so the token stack, the effective level and the debug flags
afterwards are exactly what they were before the call, and fn's outcome
is propagated. -/
theorem withLevel_restores_state {α : Type} (level : LevelArg)
    (fn : FnBehavior α) (st : RuntimeState) (h : stConsistent st = true) :
    ((withLevel level fn st).2.tokens = st.tokens)
    ∧ ((withLevel level fn st).2.level = st.level)
    ∧ ((withLevel level fn st).2.baseLevel = st.baseLevel)
    ∧ ((withLevel level fn st).2.inDebug = st.inDebug)
    ∧ ((withLevel level fn st).2.inDebugAllowInfo = st.inDebugAllowInfo)
    ∧ ((withLevel level fn st).2.inDebugIncludeStack = st.inDebugIncludeStack)
    ∧ ((withLevel level fn st).1 = (match fn with
        | .ret v => WLOutcome.ret v
        | .throws => WLOutcome.thrown
        | .thenable (.ok v) => WLOutcome.promiseOk v
        | .thenable (.error _) => WLOutcome.promiseRejected)) := by
  have hpr := pushRemove_state level st h
  have e2 : (withLevel level fn st).2
      = removeToken (pushOverride (some level) {} st).1 (pushOverride (some level) {} st).2 := by
    cases fn with
    | ret v => rfl
    | throws => rfl
    | thenable r => cases r <;> rfl
  rw [e2, hpr]
  refine ⟨rfl, rfl, rfl, rfl, rfl, rfl, ?_⟩
  cases fn with
  | ret v => rfl
  | throws => rfl
  | thenable r => cases r <;> rfl

/-- Witness for C5 at a concrete state and function: the state left by
withLevel on a fresh INFO-level logger running a function that throws is
untouched. -/
theorem withLevel_restores_state_witness :
    stConsistent (initState 2) = true
    ∧ (withLevel (.vStr "debug") (FnBehavior.throws (α := Nat)) (initState 2)).2.tokens = []
    ∧ (withLevel (.vStr "debug") (FnBehavior.throws (α := Nat)) (initState 2)).2.level = 2 := by
  have h0 : stConsistent (initState 2) = true := by decide
  have h := withLevel_restores_state (α := Nat) (.vStr "debug") .throws (initState 2) h0
  exact ⟨h0, h.1, h.2.1⟩

/-- C1: for every logger configuration and runtime state, error forwards
to its sink iff the effective level is at least ERROR (the debug window
gives no bypass), info iff the level is at least INFO or an info-allowing
debug window is active, debug iff the level is at least DEBUG or a debug
window is active, and warn iff the level is at least warnLevel — whose
default is ERROR's numeric value and which is independent of the base
gate. -/
theorem emitters_gating (cfg : LoggerConfig) (st : RuntimeState)
    (input data : JVal) (msg : String) :
    ((error_emit cfg st input data).isSome ↔ LogLevel.ERROR ≤ st.level)
    ∧ ((info_emit cfg st msg data).isSome
        ↔ (LogLevel.INFO ≤ st.level ∨ (st.inDebug = true ∧ st.inDebugAllowInfo = true)))
    ∧ ((debug_emit cfg st msg data).isSome
        ↔ (LogLevel.DEBUG ≤ st.level ∨ st.inDebug = true))
    ∧ ((warn_emit cfg st msg data).isSome ↔ cfg.warnLevel ≤ st.level)
    ∧ resolveWarnLevel .vNone = LogLevel.ERROR := by
  refine ⟨?_, ?_, ?_, ?_, rfl⟩
  · have h : (error_emit cfg st input data).isSome ↔ ¬ st.level < LogLevel.ERROR := by
      unfold error_emit; split <;> simp [*]
    rw [h, Nat.not_lt]
  · have h : (info_emit cfg st msg data).isSome
        ↔ (st.level ≥ LogLevel.INFO ∨ (st.inDebug && st.inDebugAllowInfo) = true) := by
      unfold info_emit; split <;> simp_all
    rw [h]
    simp [Bool.and_eq_true, ge_iff_le]
  · have h : (debug_emit cfg st msg data).isSome
        ↔ (st.level ≥ LogLevel.DEBUG ∨ st.inDebug = true) := by
      unfold debug_emit; split <;> simp_all
    rw [h]
  · have h : (warn_emit cfg st msg data).isSome ↔ st.level ≥ cfg.warnLevel := by
      unfold warn_emit; split <;> simp_all
    rw [h]

/-- C2: the resolved base severity follows the precedence explicit level
(name or clamped number) > DEBUG_MODE (1|true|yes|on, case-insensitive)
> LOG_LEVEL (severity name or number, WARN/WRN meaning the configured
warnLevel) > NODE_ENV production prodDefault, else INFO; unparsable
values fall through; and env LOG_LEVEL WARN with warnLevel INFO resolves
to INFO. -/
theorem resolveLevel_precedence :
    (∀ optLevel warnLevel env prodDefault l,
       parseLogLevel optLevel = some l →
       resolveLevel optLevel warnLevel env prodDefault = l)
    ∧ (∀ optLevel warnLevel env prodDefault,
       parseLogLevel optLevel = none → debugModeOn env = true →
       resolveLevel optLevel warnLevel env prodDefault = LogLevel.DEBUG)
    ∧ (∀ optLevel warnLevel env prodDefault,
       parseLogLevel optLevel = none → debugModeOn env = false →
       logLevelIsWarn env = true →
       resolveLevel optLevel warnLevel env prodDefault = warnLevel)
    ∧ (∀ optLevel warnLevel env prodDefault l,
       parseLogLevel optLevel = none → debugModeOn env = false →
       logLevelIsWarn env = false → parseLogLevel (logLevelArg env) = some l →
       resolveLevel optLevel warnLevel env prodDefault = l)
    ∧ (∀ optLevel warnLevel env prodDefault,
       parseLogLevel optLevel = none → debugModeOn env = false →
       logLevelIsWarn env = false → parseLogLevel (logLevelArg env) = none →
       nodeEnvProduction env = true →
       resolveLevel optLevel warnLevel env prodDefault
         = (parseLogLevel prodDefault).getD LogLevel.ERROR)
    ∧ (∀ optLevel warnLevel env prodDefault,
       parseLogLevel optLevel = none → debugModeOn env = false →
       logLevelIsWarn env = false → parseLogLevel (logLevelArg env) = none →
       nodeEnvProduction env = false →
       resolveLevel optLevel warnLevel env prodDefault = LogLevel.INFO)
    ∧ resolveLevel .vNone LogLevel.INFO (some { LOG_LEVEL := some "WARN" }) .vNone
        = LogLevel.INFO
    ∧ parseLogLevel (.vStr "eRRor") = some LogLevel.ERROR
    ∧ parseLogLevel (.vNum 9) = some LogLevel.DEBUG
    ∧ parseLogLevel (.vNum (-2)) = some LogLevel.NONE
    ∧ parseLogLevel (.vStr "verbose") = none := by
  refine ⟨?_, ?_, ?_, ?_, ?_, ?_, by decide, by decide, by decide, by decide, by decide⟩ <;>
    (intros; simp [resolveLevel, *])

/-- Witness for C2 exercising each precedence branch at concrete inputs:
explicit wins over a production NODE_ENV; DEBUG_MODE wins over
LOG_LEVEL; WRN resolves to the configured warnLevel; a LOG_LEVEL name
parses; an unparsable LOG_LEVEL falls through to the production default;
and with nothing set the level is INFO. -/
theorem resolveLevel_precedence_witness :
    resolveLevel (.vStr "Debug") 1 (some { NODE_ENV := some "production" }) .vNone
        = LogLevel.DEBUG
    ∧ resolveLevel .vNone 1 (some { DEBUG_MODE := some "ON", LOG_LEVEL := some "error" })
        .vNone = LogLevel.DEBUG
    ∧ resolveLevel .vNone 2 (some { LOG_LEVEL := some " wrn " }) .vNone = 2
    ∧ resolveLevel .vNone 1 (some { LOG_LEVEL := some "dbg" }) .vNone = LogLevel.DEBUG
    ∧ resolveLevel .vNone 1
        (some { LOG_LEVEL := some "verbose", NODE_ENV := some "Production" })
        (.vStr "none") = LogLevel.NONE
    ∧ resolveLevel (.vStr "") 1 none .vNone = LogLevel.INFO := by
  have h := resolveLevel_precedence
  refine ⟨h.1 _ 1 _ .vNone LogLevel.DEBUG (by decide),
          h.2.1 _ 1 _ .vNone (by decide) (by decide),
          h.2.2.1 _ 2 _ .vNone (by decide) (by decide) (by decide),
          h.2.2.2.1 _ 1 _ .vNone LogLevel.DEBUG (by decide) (by decide) (by decide)
            (by decide),
          ?_,
          h.2.2.2.2.2.1 _ 1 _ .vNone (by decide) (by decide) (by decide) (by decide)
            (by decide)⟩
  have e := h.2.2.2.2.1 .vNone 1
    (some { LOG_LEVEL := some "verbose", NODE_ENV := some "Production" })
    (.vStr "none") (by decide) (by decide) (by decide) (by decide) (by decide)
  rw [e]
  decide

/-- C9: a non-finite or non-positive ms duration (NaN, ±Infinity, zero,
negative) makes both debugForMs and withLevelTimed throw before any
override token is pushed — the error is raised by the guard that runs
ahead of pushOverride, so no state is produced and the duration is never
coerced. -/
theorem timed_overrides_validate_duration (ms : JSNum) (opts : DebugArgOpts)
    (level : LevelArg) (st : RuntimeState)
    (h : jsFinite ms = false ∨ jsPos ms = false) :
    debugForMs ms opts st = .error "debugForMs requires a positive ms duration."
    ∧ withLevelTimed level ms st
        = .error "withLevelTimed requires a positive ms duration." := by
  have hc : jsFinite ms = true → jsLeZero ms = true := by
    intro hf
    cases ms with
    | fin x =>
      rcases h with h | h
      · simp [jsFinite] at h
      · simp only [jsPos, decide_eq_false_iff_not] at h
        simpa [jsLeZero] using Int.not_lt.mp h
    | nan => simp [jsFinite] at hf
    | posInf => simp [jsFinite] at hf
    | negInf => simp [jsFinite] at hf
  constructor <;> simp [debugForMs, withLevelTimed] <;> exact hc

/-- Witness for C9: ms = 0 (finite, non-positive) and ms = NaN both make
the timed overrides throw. -/
theorem timed_overrides_validate_duration_witness :
    (jsFinite (.fin 0) = false ∨ jsPos (.fin 0) = false)
    ∧ debugForMs (.fin 0) {} (initState 2)
        = .error "debugForMs requires a positive ms duration."
    ∧ withLevelTimed (.vStr "debug") .nan (initState 2)
        = .error "withLevelTimed requires a positive ms duration." := by
  have h1 := timed_overrides_validate_duration (.fin 0) {} (.vStr "debug") (initState 2)
    (Or.inr (by decide))
  have h2 := timed_overrides_validate_duration .nan {} (.vStr "debug") (initState 2)
    (Or.inl (by decide))
  exact ⟨Or.inr (by decide), h1.1, h2.2⟩

/-- C10: a level argument that parses to no severity (such as "verbose"
or the empty string) is not rejected by withLevel or withLevelTimed: the
pushed override token carries level NONE, so while it is in place (and
no debug window is active) error, info and debug are all gated off, and
warn is silenced too whenever warnLevel is at least ERROR. -/
theorem unparsable_level_override_gates_off (st : RuntimeState) (arg : LevelArg)
    (cfg : LoggerConfig)
    (hparse : parseLogLevel arg = none) (hnodbg : lastDebug st.tokens = none) :
    (withLevelDuring arg st).tokens
        = st.tokens ++ [{ token := st.nextId, level := some LogLevel.NONE }]
    ∧ (withLevelDuring arg st).level = LogLevel.NONE
    ∧ (∀ input data, error_emit cfg (withLevelDuring arg st) input data = none)
    ∧ (∀ msg data, info_emit cfg (withLevelDuring arg st) msg data = none)
    ∧ (∀ msg data, debug_emit cfg (withLevelDuring arg st) msg data = none)
    ∧ (LogLevel.ERROR ≤ cfg.warnLevel →
        ∀ msg data, warn_emit cfg (withLevelDuring arg st) msg data = none)
    ∧ parseLogLevel (.vStr "verbose") = none
    ∧ parseLogLevel (.vStr "") = none := by
  have e : withLevelDuring arg st
      = recomputeState { st with
          tokens := st.tokens ++ [levelEntry st arg]
          nextId := st.nextId + 1 } := rfl
  have hlv : (withLevelDuring arg st).level = LogLevel.NONE := by
    rw [e]
    simp only [recomputeState, lastLevel_append, levelEntry, hparse]
    rfl
  have hdbg : (withLevelDuring arg st).inDebug = false := by
    rw [e]
    simp only [recomputeState, lastDebug_append, levelEntry, hnodbg]
    rfl
  refine ⟨?_, hlv, ?_, ?_, ?_, ?_, by decide, by decide⟩
  · rw [e]
    simp only [recomputeState, levelEntry, hparse]
    rfl
  · intro input data
    have hgate : (withLevelDuring arg st).level < LogLevel.ERROR := by
      rw [hlv]; decide
    unfold error_emit
    rw [if_pos hgate]
  · intro msg data
    have hgate : ¬ ((withLevelDuring arg st).level ≥ LogLevel.INFO
        ∨ ((withLevelDuring arg st).inDebug
            && (withLevelDuring arg st).inDebugAllowInfo) = true) := by
      rw [hlv, hdbg]
      simp [LogLevel.INFO, LogLevel.NONE]
    unfold info_emit
    rw [if_neg hgate]
  · intro msg data
    have hgate : ¬ ((withLevelDuring arg st).level ≥ LogLevel.DEBUG
        ∨ (withLevelDuring arg st).inDebug = true) := by
      rw [hlv, hdbg]
      simp [LogLevel.DEBUG, LogLevel.NONE]
    unfold debug_emit
    rw [if_neg hgate]
  · intro hw msg data
    have hgate : ¬ ((withLevelDuring arg st).level ≥ cfg.warnLevel) := by
      rw [hlv]
      simp only [LogLevel.ERROR] at hw
      simp only [LogLevel.NONE, ge_iff_le]
      omega
    unfold warn_emit
    rw [if_neg hgate]

/-- Witness for C10: pushing the unparsable level "verbose" on a fresh
INFO-level logger drops the effective level to NONE and silences info. -/
theorem unparsable_level_override_witness :
    parseLogLevel (.vStr "verbose") = none
    ∧ lastDebug (initState 2).tokens = none
    ∧ (withLevelDuring (.vStr "verbose") (initState 2)).level = LogLevel.NONE
    ∧ info_emit {} (withLevelDuring (.vStr "verbose") (initState 2)) "hi" .jUndef
        = none := by
  have h := unparsable_level_override_gates_off (initState 2) (.vStr "verbose") {}
    (by decide) rfl
  exact ⟨by decide, rfl, h.2.1, h.2.2.2.1 "hi" .jUndef⟩

/-! ### Object lookup lemmas -/

theorem objFind_cons (x : String × JVal) (xs : JObj) (k : String) :
    objFind (x :: xs) k = if x.1 == k then some x.2 else objFind xs k := by
  by_cases hx : x.1 == k <;> simp [objFind, List.find?, hx]

theorem objFind_append (a b : JObj) (k : String) :
    objFind (a ++ b) k
      = (match objFind a k with
         | some v => some v
         | none => objFind b k) := by
  induction a with
  | nil => simp [objFind]
  | cons x xs ih =>
    rw [List.cons_append, objFind_cons, objFind_cons]
    by_cases hx : x.1 == k <;> simp [hx, ih]

theorem objFind_filter_same (fs : JObj) (k : String) (p : String × JVal → Bool)
    (h : ∀ v, p (k, v) = true) :
    objFind (fs.filter p) k = objFind fs k := by
  induction fs with
  | nil => rfl
  | cons x xs ih =>
    obtain ⟨k1, v1⟩ := x
    by_cases hk : k1 = k
    · subst hk
      rw [List.filter_cons, if_pos (by rw [h v1]), objFind_cons, objFind_cons]
      simp [ih]
    · have hk2 : (k1 == k) = false := by simpa using hk
      rw [List.filter_cons, objFind_cons]
      by_cases hp : p (k1, v1)
      · rw [if_pos hp, objFind_cons]
        simp [hk2, ih]
      · rw [if_neg hp]
        simp [hk2, ih]

theorem objFind_filter_none (fs : JObj) (k : String) (p : String × JVal → Bool)
    (h : ∀ v, p (k, v) = false) :
    objFind (fs.filter p) k = none := by
  induction fs with
  | nil => rfl
  | cons x xs ih =>
    obtain ⟨k1, v1⟩ := x
    rw [List.filter_cons]
    by_cases hp : p (k1, v1)
    · have hk : (k1 == k) = false := by
        apply beq_eq_false_iff_ne.mpr
        intro hkk
        subst hkk
        rw [h v1] at hp
        exact Bool.false_ne_true hp
      rw [if_pos hp, objFind_cons]
      simp [hk, ih]
    · rw [if_neg hp]
      exact ih

/-- The stack entry normalizeError appends when includeStack holds and
the source's stack is a string. -/
def stackEntry (err : JObj) (incl : Bool) : JObj :=
  match incl, objGetF err "stack" with
  | true, .jStr s => [("stack", JVal.jStr s)]
  | _, _ => []

theorem normalizeError_eq (err : JObj) (incl : Bool) :
    normalizeError err incl
      = [("name", if jsTruthy (objGetF err "name") then objGetF err "name"
                  else JVal.jStr "Error"),
         ("message", objGetF err "message")]
        ++ stackEntry err incl
        ++ err.filter (fun kv => kv.1 != "name" && kv.1 != "message" && kv.1 != "stack") := by
  unfold normalizeError stackEntry
  cases incl <;> cases hstack : objGetF err "stack" <;>
    simp [hstack, List.append_assoc]

theorem objFind_stackEntry_ne (err : JObj) (incl : Bool) (k : String)
    (h : ("stack" == k) = false) :
    objFind (stackEntry err incl) k = none := by
  unfold stackEntry
  cases incl <;> cases objGetF err "stack" <;> simp [objFind, List.find?, h]

/-- C3: with a mask m and truncation limit t > 0 the data transform is
exactly the shallow truncation of m's output — the mask runs first and
its result is itself truncated; truncation touches only non-null
objects, and then per own key of a shallow clone: bigints are
stringified, strings longer than t are sliced with the truncation
marker appended, Buffers are summarized by their byte size, nested
objects are not recursed into; non-objects and short enough strings
pass through unchanged. -/
theorem transform_mask_then_truncate (m : JVal → JVal) (t : Int) (ht : 0 < t) :
    (∀ x, trans (some m) (some t) x = truncateFields (m x) t)
    ∧ (∀ v, jsIsObjectType v = false → truncateFields v t = v)
    ∧ truncateFields .jNull t = .jNull
    ∧ (∀ fs, truncateFields (.jObj fs) t
        = .jObj (fs.map (fun kv => (kv.1, truncVal t kv.2))))
    ∧ (∀ k n, truncateFields (.jObj [(k, .jBig n)]) t
        = .jObj [(k, .jStr (toString n))])
    ∧ (∀ k s, t < (strLen s : Int) →
        truncateFields (.jObj [(k, .jStr s)]) t
          = .jObj [(k, .jStr (strTake s t.toNat ++ "...[truncated]"))])
    ∧ (∀ k s, (strLen s : Int) ≤ t →
        truncateFields (.jObj [(k, .jStr s)]) t = .jObj [(k, .jStr s)])
    ∧ (∀ k bs, truncateFields (.jObj [(k, .jBuf bs)]) t
        = .jObj [(k, .jStr ("[Buffer " ++ toString bs.length ++ " bytes]"))])
    ∧ (∀ k g, truncateFields (.jObj [(k, .jObj g)]) t = .jObj [(k, .jObj g)]) := by
  have hmap : ∀ fs, truncateFields (.jObj fs) t
      = .jObj (fs.map (fun kv => (kv.1, truncVal t kv.2))) := by
    intro fs
    unfold truncateFields
    rw [if_neg (by
      simp [show jsTruthy (JVal.jObj fs) = true from rfl,
            show jsIsObjectType (JVal.jObj fs) = true from rfl]),
      if_neg (by omega)]
    rfl
  refine ⟨?_, ?_, ?_, hmap, ?_, ?_, ?_, ?_, ?_⟩
  · intro x
    have hne : (t != 0) = true := by simp [bne_iff_ne]; omega
    simp [trans, applyMask, hne]
  · intro v hv
    unfold truncateFields
    rw [if_pos (Or.inr (by simp [hv]))]
  · rfl
  · intro k n
    rw [hmap]
    rfl
  · intro k s hs
    rw [hmap]
    simp only [List.map, truncVal]
    rw [if_pos hs]
  · intro k s hs
    rw [hmap]
    simp only [List.map, truncVal]
    rw [if_neg (by omega)]
  · intro k bs
    rw [hmap]
    rfl
  · intro k g
    rw [hmap]
    rfl

/-- Witness for C3 at limit 5: the transform of a masked object equals
its truncation, a bigint field is stringified, a 6-character string
field is sliced to 5 characters plus the marker, and a 5-character
string field is untouched. -/
theorem transform_mask_then_truncate_witness :
    (0:Int) < 5
    ∧ trans (some (fun v => v)) (some 5) (.jObj [("a", .jBig 7)])
        = truncateFields (.jObj [("a", .jBig 7)]) 5
    ∧ truncateFields (.jObj [("a", .jBig 7)]) 5 = .jObj [("a", .jStr "7")]
    ∧ truncateFields (.jObj [("s", .jStr "abcdef")]) 5
        = .jObj [("s", .jStr "abcde...[truncated]")]
    ∧ truncateFields (.jObj [("s", .jStr "abcde")]) 5 = .jObj [("s", .jStr "abcde")] := by
  have h := transform_mask_then_truncate (fun v => v) 5 (by decide)
  refine ⟨by decide, h.1 _, h.2.2.2.2.1 "a" 7, ?_, h.2.2.2.2.2.2.1 "s" "abcde" (by decide)⟩
  have e := h.2.2.2.2.2.1 "s" "abcdef" (by decide)
  rw [e]
  rfl

/-- C7: normalize of a source with name X, message m, stack s and code 7
with includeStack is exactly that record; with includeStack false the
stack key is absent; the output always carries name (defaulting to
Error for a falsy name) and message; every other own enumerable
property is copied; and source properties named name, message or stack
never overwrite the normalized fields. -/
theorem normalizeError_spec :
    (normalizeError
        [("name", .jStr "X"), ("message", .jStr "m"), ("stack", .jStr "s"),
         ("code", .jNum 7)] true
      = [("name", .jStr "X"), ("message", .jStr "m"), ("stack", .jStr "s"),
         ("code", .jNum 7)])
    ∧ (normalizeError
        [("name", .jStr "X"), ("message", .jStr "m"), ("stack", .jStr "s"),
         ("code", .jNum 7)] false
      = [("name", .jStr "X"), ("message", .jStr "m"), ("code", .jNum 7)])
    ∧ (∀ err incl, objFind (normalizeError err incl) "name"
        = some (if jsTruthy (objGetF err "name") then objGetF err "name"
                else JVal.jStr "Error"))
    ∧ (∀ err incl, objFind (normalizeError err incl) "message"
        = some (objGetF err "message"))
    ∧ (∀ err, objFind (normalizeError err false) "stack" = none)
    ∧ (∀ err s, objGetF err "stack" = .jStr s →
        objFind (normalizeError err true) "stack" = some (.jStr s))
    ∧ (∀ err incl k, k ≠ "name" → k ≠ "message" → k ≠ "stack" →
        objFind (normalizeError err incl) k = objFind err k) := by
  refine ⟨rfl, rfl, ?_, ?_, ?_, ?_, ?_⟩
  · intro err incl
    rw [normalizeError_eq, objFind_append, objFind_append, objFind_cons]
    simp
  · intro err incl
    rw [normalizeError_eq, objFind_append, objFind_append, objFind_cons, objFind_cons]
    simp
  · intro err
    have hC := objFind_filter_none err "stack"
      (fun kv => kv.1 != "name" && kv.1 != "message" && kv.1 != "stack")
      (fun v => rfl)
    have hB0 : objFind (stackEntry err false) "stack" = none := rfl
    rw [normalizeError_eq, objFind_append, objFind_append, objFind_cons, objFind_cons,
      hB0, hC]
    simp [objFind, List.find?]
  · intro err s hs
    have hB : objFind (stackEntry err true) "stack" = some (.jStr s) := by
      unfold stackEntry
      rw [hs]
      simp [objFind, List.find?]
    rw [normalizeError_eq, objFind_append, objFind_append, objFind_cons, objFind_cons, hB]
    simp [objFind, List.find?]
  · intro err incl k hn hm hs
    have hC := objFind_filter_same err k
      (fun kv => kv.1 != "name" && kv.1 != "message" && kv.1 != "stack")
      (by intro v; simp [bne_iff_ne, hn, hm, hs])
    have h1 : ("name" == k) = false := by simpa using (Ne.symm hn)
    have h2 : ("message" == k) = false := by simpa using (Ne.symm hm)
    have h3 := objFind_stackEntry_ne err incl k (by simpa using (Ne.symm hs))
    rw [normalizeError_eq, objFind_append, objFind_append, objFind_cons, objFind_cons,
      h3, hC]
    simp [objFind, List.find?, Ne.symm hn, Ne.symm hm]

/-- Witness for C7: a custom field is copied through at a concrete key
distinct from the reserved three, and a falsy name falls back to the
Error default. -/
theorem normalizeError_spec_witness :
    objFind (normalizeError [("code", .jNum 7)] true) "code" = some (.jNum 7)
    ∧ objFind (normalizeError [("name", .jNum 0), ("message", .jStr "m")] false) "name"
        = some (.jStr "Error") := by
  have h := normalizeError_spec
  refine ⟨?_, ?_⟩
  · have e := h.2.2.2.2.2.2 [("code", .jNum 7)] true "code"
      (by decide) (by decide) (by decide)
    rw [e]
    rfl
  · have e := h.2.2.1 [("name", .jNum 0), ("message", .jStr "m")] false
    rw [e]
    rfl

/-- C8: under dataWins a tagged logger delivers the spread of tags then
data — so tags a:1 with data a:2, b:3 yields a:2, b:3 — and under
tagsWin the spread of data then tags, yielding a:1, b:3; undefined data
delivers exactly the tag set; and a non-plain value (array, Date, class
instance, primitive) is wrapped under a data key before merging instead
of being spread. -/
theorem withTags_merge_spec :
    (tagMerge true [("a", .jNum 1)] (.jObj [("a", .jNum 2), ("b", .jNum 3)])
      = .jObj [("a", .jNum 2), ("b", .jNum 3)])
    ∧ (tagMerge false [("a", .jNum 1)] (.jObj [("a", .jNum 2), ("b", .jNum 3)])
      = .jObj [("a", .jNum 1), ("b", .jNum 3)])
    ∧ (∀ tags dw, tagMerge dw tags .jUndef = .jObj tags)
    ∧ (∀ tags fs, tagMerge true tags (.jObj fs) = .jObj (spread tags fs))
    ∧ (∀ tags fs, tagMerge false tags (.jObj fs) = .jObj (spread fs tags))
    ∧ (∀ tags d, isPlainObject d = false → isUndef d = false →
        tagMerge true tags d = .jObj (spread tags [("data", d)])
        ∧ tagMerge false tags d = .jObj (spread [("data", d)] tags))
    ∧ (∀ (cfg : LoggerConfig) tags dw st msg data, cfg.mask = none →
        cfg.truncate = none → LogLevel.INFO ≤ st.level →
        withTags_info tags dw cfg st msg data
          = some (levelTagFormat cfg.infoTag msg, tagMerge dw tags data)) := by
  refine ⟨rfl, rfl, ?_, ?_, ?_, ?_, ?_⟩
  · intro tags dw
    cases dw <;> rfl
  · intro tags fs
    rfl
  · intro tags fs
    rfl
  · intro tags d hp hu
    constructor <;> simp [tagMerge, hp, hu]
  · intro cfg tags dw st msg data hmask htrunc hlev
    unfold withTags_info info_emit
    rw [if_pos (Or.inl hlev), hmask, htrunc]
    rfl

/-- Witness for C8: a primitive string payload is wrapped under a data
key, and a tagged info call on a fresh INFO-level logger with the
default transform delivers exactly the merged payload to the sink. -/
theorem withTags_merge_spec_witness :
    isPlainObject (.jStr "x") = false
    ∧ tagMerge true [("a", .jNum 1)] (.jStr "x")
        = .jObj [("a", .jNum 1), ("data", .jStr "x")]
    ∧ withTags_info [("a", .jNum 1)] true {} (initState 2) "m" (.jObj [("b", .jNum 2)])
        = some ("m", .jObj [("a", .jNum 1), ("b", .jNum 2)]) := by
  have h := withTags_merge_spec
  refine ⟨rfl, ?_, ?_⟩
  · have e := (h.2.2.2.2.2.1 [("a", .jNum 1)] (.jStr "x") rfl rfl).1
    rw [e]
    rfl
  · have e := h.2.2.2.2.2.2 {} [("a", .jNum 1)] true (initState 2) "m"
      (.jObj [("b", .jNum 2)]) rfl rfl (by decide)
    rw [e]
    rfl

/-- The mask of the C4 scenario: v maps to a copy of v whose secret
property is replaced by the string MASKED. -/
def mask4 : JVal → JVal
  | .jObj fs => .jObj (spread fs [("secret", .jStr "MASKED")])
  | v => v

/-- The logger configuration of the C4 scenario: mask4 and truncate 5. -/
def cfg4 : LoggerConfig := { mask := some mask4, truncate := some 5 }

/-- C4 counterexample: with mask4 and truncate 5, logging the object
with secret abcdef and long abcdefgh does NOT deliver the payload the
claim states (secret MASKED untruncated and marker "…(truncated)"): the
masked secret, six characters, exceeds the limit of five and is itself
truncated, and the code's marker is "...[truncated]". -/
theorem mask_truncate_example_refuted :
    info_emit cfg4 (initState 2) "m"
        (.jObj [("secret", .jStr "abcdef"), ("long", .jStr "abcdefgh")])
      ≠ some ("m", .jObj [("secret", .jStr "MASKED"),
                          ("long", .jStr "abcde…(truncated)")]) := by
  rw [show info_emit cfg4 (initState 2) "m"
        (.jObj [("secret", .jStr "abcdef"), ("long", .jStr "abcdefgh")])
      = some ("m", .jObj [("secret", .jStr "MASKE...[truncated]"),
                          ("long", .jStr "abcde...[truncated]")]) from rfl]
  simp

/-- C4 amended: with mask4 and truncate 5, logging the object with
secret abcdef and long abcdefgh delivers to the sink the payload with
secret "MASKE...[truncated]" and long "abcde...[truncated]" — the mask
runs first and its output, where it exceeds the limit, is itself
truncated with the "...[truncated]" marker. -/
theorem mask_truncate_example :
    info_emit cfg4 (initState 2) "m"
        (.jObj [("secret", .jStr "abcdef"), ("long", .jStr "abcdefgh")])
      = some ("m", .jObj [("secret", .jStr "MASKE...[truncated]"),
                          ("long", .jStr "abcde...[truncated]")]) := rfl

end LogSM
